import Mathlib

/-!
Verification of the trade lifecycle engine (`trade_manager.py`):
the expiration rule `is_trade_expired`, the trade store operations
(`insert_trade`, `update_trade_status`, `delete_trade`, the fetch queries),
the monitor pass of `trade_monitor_loop`, and the monitor-thread starter
`start_trade_monitor`.

Time model: civil (wall-clock) US-Eastern instants are represented as natural
numbers counting microseconds since a midnight epoch, with fixed-length days
of 86400 seconds; UTC instants used by the store are integers counting
seconds.  Daylight-saving transitions are not modelled: the fixed standard
offset UTC-5 stands for the Eastern zone, so Python's aware-datetime
arithmetic (which compares and subtracts via a shared offset) coincides with
plain arithmetic on these numbers.  ISO-8601 timestamp strings compare
lexicographically exactly as the wall-clock instants they spell, so the
store's text comparisons on `closed_at` are modelled as numeric comparisons
on wall-clock values.
-/

/-- One second, in microseconds (Python datetimes have microsecond
resolution, and `total_seconds` compares at that granularity). -/
def usec : Nat := 1000000

/-- Length of one civil day in microseconds. -/
def dayLen : Nat := 86400 * usec

/-- Length of one hour in microseconds. -/
def hourLen : Nat := 3600 * usec

/-- ASCII whitespace, the characters Python's regex class matches in the
labels at issue (space, tab, newline, carriage return, form feed, vertical
tab). -/
def isWsChar (c : Char) : Bool :=
  c = ' ' || c = '\t' || c = '\n' || c = '\r' || c = '\x0b' || c = '\x0c'

/-- Numeric value of an ASCII digit. -/
def digitVal (c : Char) : Nat := c.toNat - '0'.toNat

/-- Match `(am|pm)` case-insensitively at the head of the character list:
`some false` for `am`, `some true` for `pm`, `none` when neither matches. -/
def matchAmPm : List Char → Option Bool
  | a :: m :: _ =>
    if a.toLower = 'a' && m.toLower = 'm' then some false
    else if a.toLower = 'p' && m.toLower = 'm' then some true
    else none
  | _ => none

/-- Match `(\d{1,2})(am|pm)` at the head of the list (the part of the
pattern after the whitespace run).  `\d{1,2}` is greedy: two digits are
taken when available; backtracking to one digit can never help, because the
second digit is then read where `a` or `p` is required.  Returns the decimal
value of the digits and the am/pm flag. -/
def matchHourAmPm : List Char → Option (Nat × Bool)
  | d1 :: rest =>
    if d1.isDigit then
      match rest with
      | d2 :: rest2 =>
        if d2.isDigit then
          match matchAmPm rest2 with
          | some pm => some (digitVal d1 * 10 + digitVal d2, pm)
          | none => none
        else
          match matchAmPm rest with
          | some pm => some (digitVal d1, pm)
          | none => none
      | [] => none
    else none
  | [] => none

/-- Match the whole pattern `BTC\s+(\d{1,2})(am|pm)` (case-insensitively)
at the head of the list.  `\s+` is greedy and a digit is not whitespace, so
consuming the maximal whitespace run is the only way the tail can match. -/
def matchBTCAt : List Char → Option (Nat × Bool)
  | b :: t :: c :: rest =>
    if b.toLower = 'b' && t.toLower = 't' && c.toLower = 'c' then
      match rest with
      | s :: rest2 =>
        if isWsChar s then matchHourAmPm (rest2.dropWhile isWsChar)
        else none
      | [] => none
    else none
  | _ => none

/-- `re.search` for the pattern: try every start position left to right and
return the captures of the leftmost match. -/
def searchBTC : List Char → Option (Nat × Bool)
  | [] => none
  | c :: rest =>
    match matchBTCAt (c :: rest) with
    | some r => some r
    | none => searchBTC rest

/-- 24-hour conversion of the matched hour: `pm` and hour ≠ 12 adds 12,
`am` and hour = 12 gives 0, otherwise the hour is unchanged. -/
def to24 (hour : Nat) (pm : Bool) : Nat :=
  if pm ∧ hour ≠ 12 then hour + 12
  else if ¬pm ∧ hour = 12 then 0
  else hour

/-- `is_trade_expired`, shallow embedding.  `contract` is the trade's
`contract` value (`none` for SQL NULL / an absent key); `now` is the current
US-Eastern civil instant in microseconds.  Python's
`now.replace(hour=h, minute=0, second=0, microsecond=0)` raises `ValueError`
when `h` is not in `0..23`; that raise is modelled as `none`, every normal
return as `some b`. -/
def is_trade_expired (contract : Option String) (now : Nat) : Option Bool :=
  match contract with
  | none => some false
  | some c =>
    if c.isEmpty then some false
    else
      match searchBTC c.data with
      | none => some false
      | some (h0, pm) =>
        let hour := to24 h0 pm
        if hour ≤ 23 then
          let expiration := now / dayLen * dayLen + hour * hourLen
          let expiration :=
            if expiration < now ∧ now - expiration > 3600 * usec then
              expiration + dayLen
            else expiration
          some (decide (now ≥ expiration))
        else none

/-! ## The trade store -/

/-- Offset, in seconds, added to a UTC wall-clock instant to obtain the
US-Eastern wall-clock instant (standard time, UTC-5; daylight saving is not
modelled). -/
def eastern_offset : Int := -18000

/-- A row of the `trades` table.  `price` is the stored REAL value,
`closed_at` the stored ISO-8601 timestamp read as an Eastern wall-clock
instant in seconds (`none` for NULL), `contract` the optional label. -/
structure Trade where
  id : Nat
  date : String
  time : String
  strike : String
  side : String
  price : Rat
  position : Int
  status : String
  closed_at : Option Int
  contract : Option String
deriving Repr, DecidableEq

/-- The persisted store: the rows of the `trades` table in rowid order,
plus the AUTOINCREMENT counter for the next `id` (never reused, not
decremented by deletes). -/
structure Store where
  trades : List Trade
  nextId : Nat
deriving Repr, DecidableEq

/-- The freshly created store: no rows, ids starting at 1. -/
def emptyStore : Store := { trades := [], nextId := 1 }

/-- `insert_trade`: appends a new row with the generated id, the price
divided by 100, status defaulted to `'open'` when the caller supplied none,
and NULL `closed_at`; returns the updated store and the new id. -/
def insert_trade (s : Store) (date time strike side : String) (price : Rat)
    (position : Int) (status : Option String) (contract : Option String) :
    Store × Nat :=
  let t : Trade :=
    { id := s.nextId, date := date, time := time, strike := strike,
      side := side, price := price / 100, position := position,
      status := status.getD "open", closed_at := none, contract := contract }
  ({ trades := s.trades ++ [t], nextId := s.nextId + 1 }, s.nextId)

/-- `update_trade_status`: when the new status is `'closed'`, writes the
status together with `closed_at` — the caller-supplied value, or the current
instant converted to Eastern when none was supplied; for any other status it
writes only the status column.  `nowUtc` is the current UTC instant in
seconds. -/
def update_trade_status (nowUtc : Int) (s : Store) (trade_id : Nat)
    (status : String) (closed_at : Option Int) : Store :=
  if status = "closed" then
    let ca := closed_at.getD (nowUtc + eastern_offset)
    { s with trades := s.trades.map (fun t =>
        if t.id = trade_id then { t with status := status, closed_at := some ca }
        else t) }
  else
    { s with trades := s.trades.map (fun t =>
        if t.id = trade_id then { t with status := status } else t) }

/-- `delete_trade`: removes the rows whose id matches (at most one, since
ids are unique). -/
def delete_trade (s : Store) (trade_id : Nat) : Store :=
  { s with trades := s.trades.filter (fun t => t.id ≠ trade_id) }

/-- Stable insertion into a list sorted by `le` (`le a b` = "a may come
before b"). -/
def insertSorted (le : Trade → Trade → Bool) (a : Trade) :
    List Trade → List Trade
  | [] => [a]
  | b :: bs => if le a b then a :: b :: bs else b :: insertSorted le a bs

/-- Sort a list of rows by `le`. -/
def sortRows (le : Trade → Trade → Bool) : List Trade → List Trade
  | [] => []
  | a :: as => insertSorted le a (sortRows le as)

/-- A SQL value in a returned row: integer, real, text or NULL. -/
inductive Val where
  | i : Int → Val
  | r : Rat → Val
  | s : String → Val
  | null : Val
deriving Repr, DecidableEq

/-- A text-or-NULL column value. -/
def optS : Option String → Val
  | none => Val.null
  | some x => Val.s x

/-- A timestamp-or-NULL column value (timestamps spelled as ISO text in the
table, represented by their wall-clock instant). -/
def optT : Option Int → Val
  | none => Val.null
  | some x => Val.i x

/-- The dict built from a row of the nine-column SELECT used by
`fetch_open_trades` (no `closed_at`). -/
def rowOpen (t : Trade) : List (String × Val) :=
  [("id", Val.i t.id), ("date", Val.s t.date), ("time", Val.s t.time),
   ("strike", Val.s t.strike), ("side", Val.s t.side), ("price", Val.r t.price),
   ("position", Val.i t.position), ("status", Val.s t.status),
   ("contract", optS t.contract)]

/-- The dict built from a row of the ten-column SELECT used by
`fetch_all_trades` and `fetch_recent_closed_trades` (with `closed_at`). -/
def rowFull (t : Trade) : List (String × Val) :=
  [("id", Val.i t.id), ("date", Val.s t.date), ("time", Val.s t.time),
   ("strike", Val.s t.strike), ("side", Val.s t.side), ("price", Val.r t.price),
   ("position", Val.i t.position), ("status", Val.s t.status),
   ("closed_at", optT t.closed_at), ("contract", optS t.contract)]

/-- `fetch_open_trades`: the rows with status `'open'`, in table order (no
ORDER BY), as nine-key dicts without `closed_at`. -/
def fetch_open_trades (s : Store) : List (List (String × Val)) :=
  (s.trades.filter (fun t => t.status = "open")).map rowOpen

/-- `fetch_all_trades`: every row, ordered by descending id, as ten-key
dicts. -/
def fetch_all_trades (s : Store) : List (List (String × Val)) :=
  (sortRows (fun a b => b.id ≤ a.id) s.trades).map rowFull

/-- `fetch_recent_closed_trades`: the cutoff is `utcnow() - hours` as a
naive-UTC ISO string; the WHERE clause keeps the rows with status
`'closed'` whose `closed_at` text is `>=` that string (SQL NULL compares to
nothing, so NULL `closed_at` rows are dropped), ordered by descending
`closed_at`.  The text comparison is the wall-clock comparison of an
Eastern-stamped instant against the naive-UTC cutoff. -/
def fetch_recent_closed_trades (nowUtc : Int) (hours : Int) (s : Store) :
    List (List (String × Val)) :=
  let cutoff := nowUtc - hours * 3600
  ((sortRows (fun a b => a.closed_at.getD 0 ≥ b.closed_at.getD 0)
      (s.trades.filter (fun t =>
        t.status = "closed" &&
        match t.closed_at with
        | some ca => ca ≥ cutoff
        | none => false))).map rowFull)

/-- The `GET /trades` handler `get_trades`: routes on the `status` and
`recent_hours` query parameters (`recent_hours` participates by Python
truthiness: absent or 0 falls through to the unfiltered closed branch). -/
def get_trades (nowUtc : Int) (s : Store) (status : Option String)
    (recent_hours : Option Int) : List (List (String × Val)) :=
  if status = some "open" then fetch_open_trades s
  else if status = some "closed" && !(recent_hours = none || recent_hours = some 0) then
    fetch_recent_closed_trades nowUtc (recent_hours.getD 0) s
  else if status = some "closed" then
    (fetch_all_trades s).filter (fun r => ("status", Val.s "closed") ∈ r)
  else fetch_all_trades s

/-! ## The lifecycle monitor -/

/-- `check_stop_trigger`: the stop-trigger predicate; the shipped
implementation never triggers. -/
def check_stop_trigger (_t : Trade) : Bool := false

/-- Rows with status `'open'`, the records the monitor pass iterates over
(what `fetch_open_trades` selects, before dict packaging). -/
def openTrades (s : Store) : List Trade :=
  s.trades.filter (fun t => t.status = "open")

/-- The body of one monitor pass: `for trade in open_trades`, check the
stop trigger first, otherwise the expiration rule, and close the trade when
either fires.  The whole loop runs inside a single `try`: the first raise —
modelled by `close` returning `none` for a storage failure, or by
`is_trade_expired` returning `none` — abandons the rest of the pass and the
store is left as the failing step left it. -/
def passLoop (stop : Trade → Bool) (expired : Trade → Option Bool)
    (close : Store → Nat → Option Store) : List Trade → Store → Store
  | [], s => s
  | t :: ts, s =>
    if stop t then
      match close s t.id with
      | some s2 => passLoop stop expired close ts s2
      | none => s
    else
      match expired t with
      | some true =>
        match close s t.id with
        | some s2 => passLoop stop expired close ts s2
        | none => s
      | some false => passLoop stop expired close ts s
      | none => s

/-- One pass of `trade_monitor_loop` over the store.  `nowEast` is the
current Eastern civil instant (for the expiration rule), `nowUtc` the
current UTC instant (for the `closed_at` stamp); `failClose` injects a
storage failure into the close of the given trade id (an always-false
`failClose` is the failure-free run). -/
def trade_monitor_pass (nowEast : Nat) (nowUtc : Int) (failClose : Nat → Bool)
    (s : Store) : Store :=
  passLoop check_stop_trigger (fun t => is_trade_expired t.contract nowEast)
    (fun st tid =>
      if failClose tid then none
      else some (update_trade_status nowUtc st tid "closed" none))
    (openTrades s) s

/-! ## The monitor thread starter -/

/-- The process state relevant to `start_trade_monitor`: one entry per
monitor thread ever spawned (`true` while its loop is running), and
`_monitor_thread`, the index of the thread the module-level variable
references (`none` before the first start). -/
structure MonState where
  threads : List Bool
  href : Option Nat
deriving Repr, DecidableEq

/-- The initial process state: no thread spawned, `_monitor_thread = None`. -/
def monInit : MonState := { threads := [], href := none }

/-- `_monitor_thread is not None and _monitor_thread.is_alive()`. -/
def monAlive (ms : MonState) : Bool :=
  match ms.href with
  | none => false
  | some i => ms.threads.getD i false

/-- `start_trade_monitor`: when `_monitor_thread` is None or its thread is
no longer alive, spawn a fresh monitor thread and point `_monitor_thread`
at it; otherwise do nothing. -/
def start_trade_monitor (ms : MonState) : MonState :=
  if monAlive ms then ms
  else { threads := ms.threads ++ [true], href := some ms.threads.length }

/-- An event visible to the starter's state: a call to
`start_trade_monitor`, or the death of thread `i` (its loop leaving, or the
daemon thread being torn down). -/
inductive MonEvent where
  | start : MonEvent
  | die : Nat → MonEvent
deriving Repr, DecidableEq

/-- One event step on the process state. -/
def monStep (ms : MonState) : MonEvent → MonState
  | MonEvent.start => start_trade_monitor ms
  | MonEvent.die i => { ms with threads := ms.threads.set i false }

/-- The process state reached from start-up by a sequence of events. -/
def monRun (l : List MonEvent) : MonState :=
  l.foldl monStep monInit

/-- The number of monitor threads currently running. -/
def aliveCount (ms : MonState) : Nat :=
  (ms.threads.filter (fun b => b)).length

/-! ## Claims about the expiration rule -/

/-- C5: `is_trade_expired` returns `false` for every instant `now` when the
contract label is absent (`None`), empty, `"ETH 9am"` or `"BTC morning"` —
labels with no case-insensitive `BTC <1-2 digit hour><am|pm>` substring
never expire. -/
theorem c5_nonmatching_never_expires :
    ∀ now : Nat,
      is_trade_expired none now = some false ∧
      is_trade_expired (some "") now = some false ∧
      is_trade_expired (some "ETH 9am") now = some false ∧
      is_trade_expired (some "BTC morning") now = some false :=
  fun _ => ⟨rfl, rfl, rfl, rfl⟩

/-- C4 (failing input): contrary to the claim that `is_trade_expired`
always returns a boolean, the regex `\d{1,2}` is not restricted to hours
1–12: on the label `"BTC 13pm"` it captures 13, 24-hour conversion yields
25, and `now.replace(hour=25, ...)` raises `ValueError` (modelled by
`none`) for every instant `now`; likewise `"BTC 99am"` yields hour 99. -/
theorem c4_out_of_range_hour_raises :
    ∀ now : Nat,
      is_trade_expired (some "BTC 13pm") now = none ∧
      is_trade_expired (some "BTC 99am") now = none :=
  fun _ => ⟨rfl, rfl⟩

/-! ## Claims about the monitor pass -/

/-- Open trade 1 of the concrete scenarios, with an expired `BTC 9am`
contract when evaluated at or after 9:00 Eastern. -/
def tradeOne : Trade :=
  { id := 1, date := "2024-01-02", time := "08:00", strike := "97000",
    side := "yes", price := 1, position := 1, status := "open",
    closed_at := none, contract := some "BTC 9am" }

/-- Open trade 2 of the concrete scenarios. -/
def tradeTwo : Trade :=
  { id := 2, date := "2024-01-02", time := "08:01", strike := "97000",
    side := "yes", price := 1, position := 1, status := "open",
    closed_at := none, contract := some "BTC 9am" }

/-- Open trade 3 of the concrete scenarios. -/
def tradeThree : Trade :=
  { id := 3, date := "2024-01-02", time := "08:02", strike := "97000",
    side := "yes", price := 1, position := 1, status := "open",
    closed_at := none, contract := some "BTC 9am" }

/-- A pass scenario: three open trades with expired `BTC 9am` contracts at
9:00 Eastern. -/
def c3Store : Store :=
  { trades := [tradeOne, tradeTwo, tradeThree], nextId := 4 }

/-- C3 (failing input): the `try` in `trade_monitor_loop` wraps the whole
`for` loop, so a storage failure while closing the first trade abandons the
pass: with trades 1, 2, 3 all open and expired at 9:00 Eastern and the
close of trade 1 raising, trades 2 and 3 are left unevaluated and open,
although each of the three is due; the same pass with no failure closes all
three.  The error is caught outside the loop, so the monitor itself
survives to its next period — but per-trade isolation, which the claim
asserts, does not hold. -/
theorem c3_pass_aborts_on_first_failure :
    (trade_monitor_pass (9 * hourLen) 0 (fun i => i = 1) c3Store).trades.map
        Trade.status = ["open", "open", "open"] ∧
    (trade_monitor_pass (9 * hourLen) 0 (fun _ => false) c3Store).trades.map
        Trade.status = ["closed", "closed", "closed"] := by
  constructor <;> rfl

/-! ## Claims about the fetch queries -/

/-- The store of the C7 scenario: one trade created and then closed by the
store at UTC instant -72000, i.e. 20 hours before the query instant 0; the
stamped `closed_at` is the Eastern wall-clock value -90000. -/
def c7Store : Store :=
  update_trade_status (-72000)
    (insert_trade emptyStore "2024-01-01" "10:00" "97000" "yes" 0 1 none none).1
    1 "closed" none

/-- C7 (failing input): a trade closed 20 hours before the query — within
the trailing 24-hour window, as the second conjunct records — is *not*
returned by `fetch_recent_closed_trades 24`, because the cutoff is the
naive-UTC instant `utcnow() - 24h` while `closed_at` is stamped in Eastern
wall-clock time (5 hours behind UTC): the comparison `-90000 >= -86400`
fails.  The row is present and closed, as the first conjunct shows. -/
theorem c7_window_misses_recent_close :
    c7Store.trades.map (fun t => (t.status, t.closed_at)) =
        [("closed", some (-90000 : Int))] ∧
    ((0 : Int) - (-72000)) ≤ 24 * 3600 ∧
    fetch_recent_closed_trades 0 24 c7Store = [] := by
  refine ⟨rfl, by decide, rfl⟩

/-! ## Claims about the store operations -/

/-- C8: on an id present nowhere in the store, `update_trade_status` and
`delete_trade` return successfully and leave the store unchanged, and
`delete_trade` is idempotent (a second delete of the same id is a no-op). -/
theorem c8_missing_id_noop (s : Store) (nowUtc : Int) (tid : Nat)
    (st : String) (ca : Option Int) (habs : ∀ t ∈ s.trades, t.id ≠ tid) :
    update_trade_status nowUtc s tid st ca = s ∧
    delete_trade s tid = s ∧
    delete_trade (delete_trade s tid) tid = delete_trade s tid := by
  have hmap : ∀ f : Trade → Trade,
      s.trades.map (fun t => if t.id = tid then f t else t) = s.trades := by
    intro f
    have : ∀ t ∈ s.trades, (if t.id = tid then f t else t) = t := by
      intro t ht
      exact if_neg (habs t ht)
    calc s.trades.map (fun t => if t.id = tid then f t else t)
        = s.trades.map id := List.map_congr_left this
      _ = s.trades := List.map_id s.trades
  have hfilter : s.trades.filter (fun t => t.id ≠ tid) = s.trades := by
    rw [List.filter_eq_self]
    intro t ht
    simpa using habs t ht
  refine ⟨?_, ?_, ?_⟩
  · unfold update_trade_status
    split
    · show Store.mk _ _ = s
      rw [hmap]
    · show Store.mk _ _ = s
      rw [hmap]
  · unfold delete_trade
    rw [hfilter]
  · unfold delete_trade
    rw [List.filter_filter]
    apply congrArg (fun l => Store.mk l s.nextId)
    apply List.filter_congr
    intro t _
    simp [Bool.and_self]

/-- Witness for C8 at a concrete store and a concrete missing id. -/
theorem c8_missing_id_noop_witness :
    (∀ t ∈ c3Store.trades, t.id ≠ 7) ∧
    (update_trade_status 0 c3Store 7 "closed" none = c3Store ∧
     delete_trade c3Store 7 = c3Store ∧
     delete_trade (delete_trade c3Store 7) 7 = delete_trade c3Store 7) :=
  ⟨by decide, c8_missing_id_noop c3Store 0 7 "closed" none (by decide)⟩

/-- C6: the frame of `update_trade_status`.  The id counter and the number
of rows are unchanged; every row keeps its id, date, time, strike, side,
price, position and contract; a row whose id differs from the target is
completely unchanged (including `closed_at`); the target row gets the new
status, and its `closed_at` becomes the supplied timestamp — or, when none
was supplied, the current instant converted to Eastern — exactly when the
new status is `'closed'`, and is untouched otherwise. -/
theorem c6_set_status_frame (s : Store) (nowUtc : Int) (tid : Nat)
    (st : String) (ca : Option Int) (i : Nat) (t : Trade)
    (h : s.trades[i]? = some t) :
    (update_trade_status nowUtc s tid st ca).nextId = s.nextId ∧
    (update_trade_status nowUtc s tid st ca).trades.length = s.trades.length ∧
    ∃ t', (update_trade_status nowUtc s tid st ca).trades[i]? = some t' ∧
      t'.id = t.id ∧ t'.date = t.date ∧ t'.time = t.time ∧
      t'.strike = t.strike ∧ t'.side = t.side ∧ t'.price = t.price ∧
      t'.position = t.position ∧ t'.contract = t.contract ∧
      (t.id ≠ tid → t' = t) ∧
      (t.id = tid →
        t'.status = st ∧
        t'.closed_at =
          if st = "closed" then some (ca.getD (nowUtc + eastern_offset))
          else t.closed_at) := by
  unfold update_trade_status
  by_cases hst : st = "closed"
  · rw [if_pos hst]
    refine ⟨rfl, by simp, ?_⟩
    refine ⟨_, by rw [List.getElem?_map, h]; rfl, ?_⟩
    dsimp only
    by_cases hid : t.id = tid
    · rw [if_pos hid]
      refine ⟨rfl, rfl, rfl, rfl, rfl, rfl, rfl, rfl, fun hc => absurd hid hc, ?_⟩
      intro _
      exact ⟨rfl, by rw [if_pos hst]⟩
    · rw [if_neg hid]
      refine ⟨rfl, rfl, rfl, rfl, rfl, rfl, rfl, rfl, fun _ => rfl,
        fun hc => absurd hc hid⟩
  · rw [if_neg hst]
    refine ⟨rfl, by simp, ?_⟩
    refine ⟨_, by rw [List.getElem?_map, h]; rfl, ?_⟩
    dsimp only
    by_cases hid : t.id = tid
    · rw [if_pos hid]
      refine ⟨rfl, rfl, rfl, rfl, rfl, rfl, rfl, rfl, fun hc => absurd hid hc, ?_⟩
      intro _
      exact ⟨rfl, by rw [if_neg hst]⟩
    · rw [if_neg hid]
      refine ⟨rfl, rfl, rfl, rfl, rfl, rfl, rfl, rfl, fun _ => rfl,
        fun hc => absurd hc hid⟩

/-- Witness for C6: closing trade 1 of the three-trade store with an
explicit timestamp. -/
theorem c6_set_status_frame_witness :
    c3Store.trades[0]? = some tradeOne ∧
    ((update_trade_status 5 c3Store 1 "closed" (some 42)).nextId = c3Store.nextId ∧
     (update_trade_status 5 c3Store 1 "closed" (some 42)).trades.length =
       c3Store.trades.length ∧
     ∃ t', (update_trade_status 5 c3Store 1 "closed" (some 42)).trades[0]? = some t' ∧
       t'.id = tradeOne.id ∧ t'.date = tradeOne.date ∧ t'.time = tradeOne.time ∧
       t'.strike = tradeOne.strike ∧ t'.side = tradeOne.side ∧
       t'.price = tradeOne.price ∧ t'.position = tradeOne.position ∧
       t'.contract = tradeOne.contract ∧
       (tradeOne.id ≠ 1 → t' = tradeOne) ∧
       (tradeOne.id = 1 →
         t'.status = "closed" ∧
         t'.closed_at =
           if "closed" = "closed" then some ((some (42 : Int)).getD (5 + eastern_offset))
           else tradeOne.closed_at)) :=
  ⟨rfl, c6_set_status_frame c3Store 5 1 "closed" (some 42) 0 tradeOne rfl⟩

/-! ## Claims about the returned record shapes -/

/-- The nine keys of a `fetch_open_trades` dict, in SELECT order. -/
def openKeys : List String :=
  ["id", "date", "time", "strike", "side", "price", "position", "status",
   "contract"]

/-- The ten keys of a `fetch_all_trades` / `fetch_recent_closed_trades`
dict, in SELECT order. -/
def fullKeys : List String :=
  ["id", "date", "time", "strike", "side", "price", "position", "status",
   "closed_at", "contract"]

/-- The dict of an open-query row carries exactly the nine open keys. -/
theorem rowOpen_keys (t : Trade) : (rowOpen t).map Prod.fst = openKeys := rfl

/-- The dict of a full-query row carries exactly the ten keys. -/
theorem rowFull_keys (t : Trade) : (rowFull t).map Prod.fst = fullKeys := rfl

/-- C10: every record returned by the `open` listing (`fetch_open_trades`,
reached from `get_trades` with `status=open`) carries exactly the nine
fields id, date, time, strike, side, price, position, status, contract and
never a `closed_at` field — whatever `closed_at` value the stored row
carries — whereas every record of the `all` and `closed` listings (with or
without a recent-hours window) carries the ten fields including
`closed_at`. -/
theorem c10_open_rows_hide_closed_at (s : Store) (nowUtc : Int)
    (rh : Option Int) :
    (∀ r ∈ fetch_open_trades s,
       r.map Prod.fst = openKeys ∧ "closed_at" ∉ r.map Prod.fst) ∧
    (∀ r ∈ fetch_all_trades s, r.map Prod.fst = fullKeys) ∧
    (∀ r ∈ fetch_recent_closed_trades nowUtc (rh.getD 24) s,
       r.map Prod.fst = fullKeys) ∧
    get_trades nowUtc s (some "open") rh = fetch_open_trades s ∧
    get_trades nowUtc s none none = fetch_all_trades s ∧
    (∀ r ∈ get_trades nowUtc s (some "closed") rh,
       r.map Prod.fst = fullKeys) := by
  have hfull : ∀ (l : List Trade), ∀ r ∈ l.map rowFull,
      r.map Prod.fst = fullKeys := by
    intro l r hr
    obtain ⟨t, _, rfl⟩ := List.mem_map.mp hr
    exact rowFull_keys t
  refine ⟨?_, ?_, ?_, ?_, ?_, ?_⟩
  · intro r hr
    obtain ⟨t, _, rfl⟩ := List.mem_map.mp hr
    exact ⟨rowOpen_keys t, by rw [rowOpen_keys]; decide⟩
  · exact hfull _
  · exact hfull _
  · rfl
  · rfl
  · intro r hr
    unfold get_trades at hr
    rw [if_neg (by simp)] at hr
    split at hr
    · exact hfull _ r hr
    · split at hr
      · exact hfull _ r (List.mem_of_mem_filter hr)
      · exact hfull _ r hr

/-- A store whose only row is open yet carries a stored `closed_at` value
(reachable, since a non-closed status update leaves `closed_at` behind). -/
def c10Store : Store :=
  { trades := [{ tradeOne with closed_at := some 99 }], nextId := 2 }

/-- Witness for C10: on that store the open listing returns the row without
its `closed_at`. -/
theorem c10_open_rows_hide_closed_at_witness :
    rowOpen { tradeOne with closed_at := some 99 } ∈ fetch_open_trades c10Store ∧
    (rowOpen { tradeOne with closed_at := some 99 }).map Prod.fst = openKeys ∧
    "closed_at" ∉ (rowOpen { tradeOne with closed_at := some 99 }).map Prod.fst :=
  ⟨List.mem_singleton.mpr rfl,
   (c10_open_rows_hide_closed_at c10Store 0 none).1
     (rowOpen { tradeOne with closed_at := some 99 })
     (List.mem_singleton.mpr rfl)⟩

/-- C1: the day-wrap correction of `is_trade_expired`.  For a label whose
leftmost `BTC <hour><am|pm>` match gives a valid derived 24-hour hour, with
`e0` the current instant with its time-of-day replaced by that hour and
minutes/seconds/sub-seconds zeroed: the result always equals
`now >= expiration` after the correction; when `e0` is earlier than `now`
by more than 3600 seconds the expiration is advanced one calendar day past
`now`, so the trade is *not* expired; when `e0` is earlier than `now` by at
most 3600 seconds no roll occurs and the trade *is* expired. -/
theorem c1_day_wrap_correction (c : String) (now h0 : Nat) (pm : Bool)
    (e0 : Nat) (hs : searchBTC c.data = some (h0, pm))
    (hh : to24 h0 pm ≤ 23)
    (he : e0 = now / dayLen * dayLen + to24 h0 pm * hourLen) :
    is_trade_expired (some c) now =
      some (decide (now ≥
        (if e0 < now ∧ now - e0 > 3600 * usec then e0 + dayLen else e0))) ∧
    (e0 < now → now - e0 > 3600 * usec →
      now < e0 + dayLen ∧ is_trade_expired (some c) now = some false) ∧
    (e0 < now → now - e0 ≤ 3600 * usec →
      is_trade_expired (some c) now = some true) := by
  have hc : c.isEmpty = false := by
    rcases hc2 : c.isEmpty with _ | _
    · rfl
    · rw [String.isEmpty_iff] at hc2
      subst hc2
      simp [searchBTC] at hs
  have hred : is_trade_expired (some c) now =
      some (decide (now ≥
        (if e0 < now ∧ now - e0 > 3600 * usec then e0 + dayLen else e0))) := by
    rw [is_trade_expired, hs, hc]
    simp only [Bool.false_eq_true, if_false]
    rw [if_pos hh, he]
  refine ⟨hred, ?_, ?_⟩
  · intro h1 h2
    have hn : now < e0 + dayLen := by
      rw [he]
      simp only [dayLen, usec, hourLen]
      omega
    refine ⟨hn, ?_⟩
    rw [hred, if_pos ⟨h1, h2⟩]
    have : decide (now ≥ e0 + dayLen) = false := by
      simp only [decide_eq_false_iff_not]
      omega
    rw [this]
  · intro h1 h2
    rw [hred, if_neg (by omega)]
    have : decide (now ≥ e0) = true := by
      simp only [decide_eq_true_eq]
      omega
    rw [this]

/-- Witness for C1: `"BTC 9am"` evaluated at 10:00:01 Eastern — a gap of
3601 seconds past the 9:00 expiration — rolls forward a day and is not
expired. -/
theorem c1_day_wrap_correction_witness :
    searchBTC ("BTC 9am").data = some (9, false) ∧
    to24 9 false ≤ 23 ∧
    9 * hourLen =
      (10 * hourLen + usec) / dayLen * dayLen + to24 9 false * hourLen ∧
    9 * hourLen < 10 * hourLen + usec ∧
    (10 * hourLen + usec) - 9 * hourLen > 3600 * usec ∧
    (10 * hourLen + usec < 9 * hourLen + dayLen ∧
     is_trade_expired (some "BTC 9am") (10 * hourLen + usec) = some false) :=
  ⟨rfl, by decide, by decide, by decide, by decide,
   (c1_day_wrap_correction "BTC 9am" (10 * hourLen + usec) 9 false
       (9 * hourLen) rfl (by decide) (by decide)).2.1 (by decide) (by decide)⟩

/-! ## Claims about the monitor starter -/

/-- The starter's invariant: every running monitor thread is the one
`_monitor_thread` references. -/
def monInv (ms : MonState) : Prop :=
  ∀ j : Nat, ms.threads[j]? = some true → ms.href = some j

/-- The initial process state satisfies the starter's invariant. -/
theorem monInv_init : monInv monInit := by
  intro j h
  simp [monInit] at h

/-- Every event (a `start_trade_monitor` call, or a thread death) preserves
the starter's invariant. -/
theorem monInv_step (ms : MonState) (e : MonEvent) (h : monInv ms) :
    monInv (monStep ms e) := by
  cases e with
  | start =>
    show monInv (start_trade_monitor ms)
    unfold start_trade_monitor
    by_cases ha : monAlive ms
    · rw [if_pos ha]
      exact h
    · rw [if_neg ha]
      intro j hj
      simp only at hj ⊢
      rw [List.getElem?_append] at hj
      split at hj
      · exfalso
        apply ha
        have hr := h j hj
        show monAlive ms = true
        unfold monAlive
        rw [hr]
        show ms.threads.getD j false = true
        rw [List.getD_eq_getElem?_getD, hj]
        rfl
      · rename_i hge
        have hj2 : j = ms.threads.length := by
          rcases Nat.lt_or_ge j (ms.threads.length + 1) with h1 | h1
          · omega
          · exfalso
            rcases hnn : j - ms.threads.length with _ | k
            · omega
            · rw [hnn] at hj
              simp at hj
        rw [hj2]
  | die i =>
    intro j hj
    simp only [monStep] at hj
    by_cases hij : i = j
    · subst hij
      by_cases hlen : i < ms.threads.length
      · rw [List.getElem?_set_self hlen] at hj
        exact absurd (Option.some.inj hj) (by simp)
      · rw [List.set_eq_of_length_le (by omega)] at hj
        exact h i hj
    · rw [List.getElem?_set_ne hij] at hj
      exact h j hj

/-- A boolean list in which any two positions holding `true` coincide has
at most one `true`. -/
theorem filter_true_len_le_one (l : List Bool)
    (h : ∀ j k : Nat, l[j]? = some true → l[k]? = some true → j = k) :
    (l.filter (fun b => b)).length ≤ 1 := by
  induction l with
  | nil => simp
  | cons b t ih =>
    cases b with
    | false =>
      simp only [List.filter_cons, if_neg (by simp : ¬(false = true))]
      exact ih (fun j k hj hk => by
        have := h (j + 1) (k + 1) (by simpa using hj) (by simpa using hk)
        omega)
    | true =>
      have ht : t.filter (fun b => b) = [] := by
        rw [List.filter_eq_nil_iff]
        intro a ha hat
        have haT : a = true := by
          cases a
          · exact absurd hat (by simp)
          · rfl
        subst haT
        obtain ⟨n, hn, hne⟩ := List.getElem_of_mem ha
        have hsome : t[n]? = some true := by
          rw [List.getElem?_eq_getElem hn, hne]
        have := h 0 (n + 1) (by simp) (by simpa using hsome)
        omega
      simp [List.filter_cons, ht]

/-- Under the invariant, at most one monitor thread runs. -/
theorem monInv_aliveCount_le_one (ms : MonState) (h : monInv ms) :
    aliveCount ms ≤ 1 := by
  unfold aliveCount
  apply filter_true_len_le_one
  intro j k hj hk
  have h1 := h j hj
  have h2 := h k hk
  rw [h1] at h2
  exact Option.some.inj h2

/-- Under the invariant, when `_monitor_thread` is dead or absent no
monitor thread at all is running. -/
theorem not_alive_aliveCount_zero (ms : MonState) (h : monInv ms)
    (ha : monAlive ms = false) : aliveCount ms = 0 := by
  unfold aliveCount
  rw [List.length_eq_zero, List.filter_eq_nil_iff]
  intro a haMem hat
  have haT : a = true := by
    cases a
    · exact absurd hat (by simp)
    · rfl
  subst haT
  obtain ⟨n, hn, hne⟩ := List.getElem_of_mem haMem
  have hsome : ms.threads[n]? = some true := by
    rw [List.getElem?_eq_getElem hn, hne]
  have hr := h n hsome
  have : monAlive ms = true := by
    unfold monAlive
    rw [hr]
    show ms.threads.getD n false = true
    rw [List.getD_eq_getElem?_getD, hsome]
    rfl
  rw [this] at ha
  exact absurd ha (by simp)

/-- Every reachable process state satisfies the starter's invariant. -/
theorem monRun_inv (l : List MonEvent) : monInv (monRun l) := by
  rw [monRun]
  induction l using List.reverseRecOn with
  | nil => exact monInv_init
  | append_singleton xs e ih =>
    rw [List.foldl_append]
    exact monInv_step _ e ih

/-- C9: in every reachable process state at most one monitor loop is
running; calling `start_trade_monitor` while the referenced monitor thread
is alive is a no-op (the state is unchanged, no second monitor is
created); calling it when no live monitor is referenced (never started, or
the previous one died) leaves exactly one monitor running. -/
theorem c9_start_monitor_idempotent (l : List MonEvent) :
    aliveCount (monRun l) ≤ 1 ∧
    (monAlive (monRun l) = true →
      start_trade_monitor (monRun l) = monRun l) ∧
    (monAlive (monRun l) = false →
      aliveCount (start_trade_monitor (monRun l)) = 1) := by
  have hinv := monRun_inv l
  refine ⟨monInv_aliveCount_le_one _ hinv, ?_, ?_⟩
  · intro ha
    unfold start_trade_monitor
    rw [if_pos ha]
  · intro ha
    unfold start_trade_monitor
    rw [if_neg (by rw [ha]; simp)]
    have h0 := not_alive_aliveCount_zero _ hinv ha
    unfold aliveCount at h0
    show (((monRun l).threads ++ [true]).filter (fun b => b)).length = 1
    rw [List.filter_append, List.length_append, h0]
    rfl

/-- Witness for C9: a second `start` after a live start is a no-op, and a
`start` after the monitor thread died spawns exactly one. -/
theorem c9_start_monitor_idempotent_witness :
    (monAlive (monRun [MonEvent.start]) = true ∧
     start_trade_monitor (monRun [MonEvent.start]) = monRun [MonEvent.start]) ∧
    (monAlive (monRun [MonEvent.start, MonEvent.die 0]) = false ∧
     aliveCount (start_trade_monitor
       (monRun [MonEvent.start, MonEvent.die 0])) = 1) :=
  ⟨⟨rfl, (c9_start_monitor_idempotent [MonEvent.start]).2.1 rfl⟩,
   ⟨rfl, (c9_start_monitor_idempotent [MonEvent.start, MonEvent.die 0]).2.2 rfl⟩⟩

/-! ## Claims about the store state machine -/

/-- A store operation issued by a caller (the HTTP layer or the monitor). -/
inductive Op where
  | create (date time strike side : String) (price : Rat) (position : Int)
      (status : Option String) (contract : Option String) : Op
  | setStatus (nowUtc : Int) (id : Nat) (status : String)
      (closedAt : Option Int) : Op
  | del (id : Nat) : Op
deriving DecidableEq

/-- Apply one operation to the store. -/
def applyOp (s : Store) : Op → Store
  | Op.create d t k sd p pos st c => (insert_trade s d t k sd p pos st c).1
  | Op.setStatus now i st ca => update_trade_status now s i st ca
  | Op.del i => delete_trade s i

/-- The store reached from the fresh store by a sequence of operations. -/
def runOps (l : List Op) : Store := l.foldl applyOp emptyStore

/-- The supported-transition discipline: creations leave the status at its
`'open'` default, and every status update sets `'closed'`. -/
def GoodOp : Op → Prop
  | Op.create _ _ _ _ _ _ st _ => st = none ∨ st = some "open"
  | Op.setStatus _ _ st _ => st = "closed"
  | Op.del _ => True

/-- The store invariant: every id is below the id counter, ids are unique,
and `closed_at` is non-null exactly on the rows whose status is
`'closed'`. -/
def WellFormed (s : Store) : Prop :=
  (∀ t ∈ s.trades, t.id < s.nextId) ∧
  (s.trades.map Trade.id).Nodup ∧
  (∀ t ∈ s.trades, t.closed_at.isSome = true ↔ t.status = "closed")

/-- The fresh store is well-formed. -/
theorem wellFormed_empty : WellFormed emptyStore := by
  refine ⟨?_, ?_, ?_⟩ <;> simp [emptyStore]

/-- `update_trade_status` with status `'closed'`, as one map equation. -/
theorem update_closed_eq (now : Int) (s : Store) (i : Nat) (ca : Option Int) :
    update_trade_status now s i "closed" ca =
      { s with trades := s.trades.map (fun t =>
          if t.id = i then
            { t with
              status := "closed",
              closed_at := some (ca.getD (now + eastern_offset)) }
          else t) } := rfl

/-- Every operation of the supported-transition discipline preserves the
store invariant. -/
theorem wellFormed_step (s : Store) (op : Op) (hg : GoodOp op)
    (h : WellFormed s) : WellFormed (applyOp s op) := by
  obtain ⟨hidlt, hnodup, hiff⟩ := h
  cases op with
  | create d t k sd p pos st c =>
    refine ⟨?_, ?_, ?_⟩
    · intro u hu
      simp only [applyOp, insert_trade, List.mem_append, List.mem_singleton] at hu ⊢
      rcases hu with hu | hu
      · exact Nat.lt_succ_of_lt (hidlt u hu)
      · subst hu
        exact Nat.lt_succ_self _
    · simp only [applyOp, insert_trade, List.map_append, List.map_cons,
        List.map_nil]
      rw [List.nodup_append]
      refine ⟨hnodup, List.nodup_singleton _, ?_⟩
      intro a ha hb
      simp only [List.mem_singleton] at hb
      subst hb
      obtain ⟨u, hu, hui⟩ := List.mem_map.mp ha
      exact absurd hui (Nat.ne_of_lt (hidlt u hu))
    · intro u hu
      simp only [applyOp, insert_trade, List.mem_append, List.mem_singleton] at hu
      rcases hu with hu | hu
      · exact hiff u hu
      · subst hu
        simp only [Option.isSome_none]
        constructor
        · intro hfalse
          exact absurd hfalse (by simp)
        · intro hst
          rcases hg with hg | hg <;> (subst hg; simp at hst)
  | setStatus now i st ca =>
    have hst : st = "closed" := hg
    subst hst
    show WellFormed (update_trade_status now s i "closed" ca)
    rw [update_closed_eq]
    refine ⟨?_, ?_, ?_⟩
    · intro u hu
      obtain ⟨v, hv, hvu⟩ := List.mem_map.mp hu
      have hids : u.id = v.id := by
        subst hvu
        split
        · rfl
        · rfl
      rw [hids]
      exact hidlt v hv
    · show ((s.trades.map _).map Trade.id).Nodup
      rw [List.map_map]
      have heq : ∀ v ∈ s.trades,
          (Trade.id ∘ fun t =>
            if t.id = i then
              { t with
                status := "closed",
                closed_at := some (ca.getD (now + eastern_offset)) }
            else t) v = Trade.id v := by
        intro v hv
        simp only [Function.comp_apply]
        split
        · rfl
        · rfl
      rw [List.map_congr_left heq]
      exact hnodup
    · intro u hu
      obtain ⟨v, hv, hvu⟩ := List.mem_map.mp hu
      subst hvu
      by_cases hvi : v.id = i
      · rw [if_pos hvi]
        simp
      · rw [if_neg hvi]
        exact hiff v hv
  | del i =>
    have hsub : (s.trades.filter (fun t => t.id ≠ i)).Sublist s.trades :=
      List.filter_sublist s.trades
    refine ⟨?_, ?_, ?_⟩
    · intro u hu
      exact hidlt u (hsub.mem hu)
    · exact (hsub.map Trade.id).nodup hnodup
    · intro u hu
      exact hiff u (hsub.mem hu)

/-- The invariant holds after any run of supported operations. -/
theorem wellFormed_run (s : Store) (l : List Op)
    (hg : ∀ op ∈ l, GoodOp op) (h : WellFormed s) :
    WellFormed (l.foldl applyOp s) := by
  induction l generalizing s with
  | nil => exact h
  | cons op rest ih =>
    rw [List.foldl_cons]
    exact ih _ (fun o ho => hg o (List.mem_cons_of_mem _ ho))
      (wellFormed_step s op (hg op (List.mem_cons_self _ _)) h)

/-- Once a trade id is closed, it stays closed (or disappears): the id is
already allocated, and every row carrying it has status `'closed'`. -/
def ClosedStays (s : Store) (i : Nat) : Prop :=
  i < s.nextId ∧ ∀ t ∈ s.trades, t.id = i → t.status = "closed"

/-- Every supported operation preserves closedness of an id. -/
theorem closedStays_step (s : Store) (op : Op) (hg : GoodOp op) (i : Nat)
    (h : ClosedStays s i) : ClosedStays (applyOp s op) i := by
  obtain ⟨hlt, hcl⟩ := h
  cases op with
  | create d t k sd p pos st c =>
    constructor
    · exact Nat.lt_succ_of_lt hlt
    · intro u hu hui
      simp only [applyOp, insert_trade, List.mem_append,
        List.mem_singleton] at hu
      rcases hu with hu | hu
      · exact hcl u hu hui
      · subst hu
        simp only at hui
        omega
  | setStatus now j st ca =>
    have hst : st = "closed" := hg
    subst hst
    show ClosedStays (update_trade_status now s j "closed" ca) i
    rw [update_closed_eq]
    constructor
    · exact hlt
    · intro u hu hui
      obtain ⟨v, hv, hvu⟩ := List.mem_map.mp hu
      subst hvu
      by_cases hvj : v.id = j
      · rw [if_pos hvj]
      · rw [if_neg hvj] at hui ⊢
        exact hcl v hv hui
  | del j =>
    constructor
    · exact hlt
    · intro u hu hui
      exact hcl u (List.mem_of_mem_filter hu) hui

/-- Closedness of an id persists along any run of supported operations. -/
theorem closedStays_run (s : Store) (l : List Op)
    (hg : ∀ op ∈ l, GoodOp op) (i : Nat) (h : ClosedStays s i) :
    ClosedStays (l.foldl applyOp s) i := by
  induction l generalizing s with
  | nil => exact h
  | cons op rest ih =>
    rw [List.foldl_cons]
    exact ih _ (fun o ho => hg o (List.mem_cons_of_mem _ ho))
      (closedStays_step s op (hg op (List.mem_cons_self _ _)) i h)

/-- C2 (amended): under the supported-transition discipline — creations
keep the `'open'` default and every status update sets `'closed'` — a
trade that is `'closed'` after some prefix of operations still has status
`'closed'` in every later store in which its id appears (no
closed-to-open transition), and every reachable record has `closed_at`
non-null exactly when its status is `'closed'`. -/
theorem c2_amended_supported_transitions (l l2 : List Op)
    (hg : ∀ op ∈ l ++ l2, GoodOp op) (t : Trade)
    (ht : t ∈ (runOps l).trades) (hc : t.status = "closed")
    (t2 : Trade) (ht2 : t2 ∈ (runOps (l ++ l2)).trades) (hid : t2.id = t.id) :
    t2.status = "closed" ∧
    (∀ u ∈ (runOps (l ++ l2)).trades,
      u.closed_at.isSome = true ↔ u.status = "closed") := by
  have hg1 : ∀ op ∈ l, GoodOp op :=
    fun op ho => hg op (List.mem_append_left _ ho)
  have hg2 : ∀ op ∈ l2, GoodOp op :=
    fun op ho => hg op (List.mem_append_right _ ho)
  have hwf1 : WellFormed (runOps l) :=
    wellFormed_run emptyStore l hg1 wellFormed_empty
  have hcs : ClosedStays (runOps l) t.id := by
    refine ⟨hwf1.1 t ht, ?_⟩
    intro u hu hui
    have hut : u = t :=
      List.inj_on_of_nodup_map hwf1.2.1 hu ht hui
    rw [hut]
    exact hc
  have hrun : runOps (l ++ l2) = l2.foldl applyOp (runOps l) := by
    unfold runOps
    rw [List.foldl_append]
  have hcs2 : ClosedStays (runOps (l ++ l2)) t.id := by
    rw [hrun]
    exact closedStays_run _ l2 hg2 t.id hcs
  exact ⟨hcs2.2 t2 ht2 hid,
    (wellFormed_run emptyStore (l ++ l2) hg wellFormed_empty).2.2⟩

/-- The operation sequence refuting C2 as stated: create an open trade,
close it with an explicit timestamp, then set its status back to
`'open'` — an operation `update_trade_status` accepts without any guard. -/
def c2Ops : List Op :=
  [Op.create "2024-01-01" "10:00" "97000" "yes" 100 1 none none,
   Op.setStatus 0 1 "closed" (some 100),
   Op.setStatus 0 1 "open" none]

/-- C2 (counterexample): after create, close, set-status-open, the store
holds a record with status `'open'` and a non-null `closed_at` — the
closed-to-open transition happened and the closed-iff-stamped invariant is
broken, refuting the claim for unrestricted status values. -/
theorem c2_counterexample_reopen :
    (runOps (c2Ops.take 2)).trades.map (fun t => (t.status, t.closed_at)) =
      [("closed", some 100)] ∧
    (runOps c2Ops).trades.map (fun t => (t.status, t.closed_at)) =
      [("open", some 100)] := ⟨rfl, rfl⟩

/-- A supported-transition prefix: create then close. -/
def c2GoodOps : List Op :=
  [Op.create "2024-01-01" "10:00" "97000" "yes" 100 1 none none,
   Op.setStatus 0 1 "closed" (some 100)]

/-- A supported-transition suffix: close the same trade again. -/
def c2GoodOps2 : List Op := [Op.setStatus 5 1 "closed" none]

/-- The record stored after the prefix. -/
def c2ClosedTrade : Trade :=
  { id := 1, date := "2024-01-01", time := "10:00", strike := "97000",
    side := "yes", price := 100 / 100, position := 1, status := "closed",
    closed_at := some 100, contract := none }

/-- The record stored after the suffix re-closes it. -/
def c2ReclosedTrade : Trade :=
  { c2ClosedTrade with closed_at := some (5 + eastern_offset) }

/-- Both concrete operation lists follow the supported discipline. -/
theorem c2_good : ∀ op ∈ c2GoodOps ++ c2GoodOps2, GoodOp op := by
  intro op hop
  simp only [c2GoodOps, c2GoodOps2, List.cons_append, List.nil_append,
    List.mem_cons, List.not_mem_nil, or_false] at hop
  rcases hop with rfl | rfl | rfl
  · exact Or.inl rfl
  · exact rfl
  · exact rfl

/-- The closed record is reachable after the prefix. -/
theorem c2_mem1 : c2ClosedTrade ∈ (runOps c2GoodOps).trades :=
  List.mem_singleton.mpr rfl

/-- The re-closed record is reachable after prefix and suffix. -/
theorem c2_mem2 : c2ReclosedTrade ∈ (runOps (c2GoodOps ++ c2GoodOps2)).trades :=
  List.mem_singleton.mpr rfl

/-- Witness for the amended C2 at the concrete create-close-reclose run. -/
theorem c2_amended_supported_transitions_witness :
    (∀ op ∈ c2GoodOps ++ c2GoodOps2, GoodOp op) ∧
    c2ClosedTrade ∈ (runOps c2GoodOps).trades ∧
    c2ClosedTrade.status = "closed" ∧
    c2ReclosedTrade ∈ (runOps (c2GoodOps ++ c2GoodOps2)).trades ∧
    c2ReclosedTrade.id = c2ClosedTrade.id ∧
    (c2ReclosedTrade.status = "closed" ∧
     ∀ u ∈ (runOps (c2GoodOps ++ c2GoodOps2)).trades,
       u.closed_at.isSome = true ↔ u.status = "closed") :=
  ⟨c2_good, c2_mem1, rfl, c2_mem2, rfl,
   c2_amended_supported_transitions c2GoodOps c2GoodOps2 c2_good
     c2ClosedTrade c2_mem1 rfl c2ReclosedTrade c2_mem2 rfl⟩
